import Mathlib

/-!
Verification of the superpsx VRAM decode / precision-normalize / diff-classify /
region-aggregate pipeline.

The definitions below are shallow embeddings of the Python sources:
  - src/compare_vram.py          (load_vram_bin)
  - src/tools/run_16bpp_tests.py (load_vram_dump, to_5bit, compare)
  - src/tools/vram_viewer.py     (expand5, decode_word, main)
  - src/tools/quick_diff.py      (diff / missing / extra / color masks, pct)
  - src/tools/full_breakdown.py  (miss / extra / color_mask, pct)
  - src/tools/check_texture.py   (5:5:5 word packing)
  - src/analyze.py               (analyze_image shape heuristic, compare_images)

Bytes are modelled as natural numbers (each < 256 in an actual dump; the
decoders are total functions so no bound is imposed), byte buffers as lists,
images as row-major pixel lists, and Python float percentages as exact
rationals.
-/

/-- An 8-bit-per-channel RGB pixel (channel values are naturals; a decoded
channel is always < 256). -/
structure RGB where
  r : Nat
  g : Nat
  b : Nat
  deriving DecidableEq

/-- An RGBA pixel as produced by vram_viewer.decode_word. -/
structure RGBA where
  r : Nat
  g : Nat
  b : Nat
  a : Nat
  deriving DecidableEq

/-- The 16-bit word decode used by the comparison pipeline
(compare_vram.load_vram_bin lines 22-24, run_16bpp_tests.load_vram_dump
lines 42-44, categorize_diffs line 15):
r = (w & 0x1F) << 3, g = ((w >> 5) & 0x1F) << 3, b = ((w >> 10) & 0x1F) << 3. -/
def decode16 (w : Nat) : RGB :=
  ⟨(w &&& 0x1F) <<< 3, ((w >>> 5) &&& 0x1F) <<< 3, ((w >>> 10) &&& 0x1F) <<< 3⟩

/-- vram_viewer.expand5: expand a 5-bit value to 8-bit by replicating the
high bits: (v << 3) | (v >> 2). -/
def expand5 (v : Nat) : Nat := (v <<< 3) ||| (v >>> 2)

/-- Channel order of the 15-bit word in vram_viewer (--format option). -/
inductive Fmt
  | bgr
  | rgb
  deriving DecidableEq

/-- vram_viewer.decode_word: decode one 16-bit word to an RGBA tuple.
bit 15 is the alpha/mask flag when alpha is set, otherwise ignored;
channels are expanded with expand5 (bit replication). -/
def decode_word (w : Nat) (fmt : Fmt) (alpha : Bool) : RGBA :=
  let a : Nat := if alpha then (if w &&& 0x8000 ≠ 0 then 255 else 0) else 255
  let pix := w &&& 0x7FFF
  match fmt with
  | .bgr => ⟨expand5 (pix &&& 0x1F), expand5 ((pix >>> 5) &&& 0x1F),
             expand5 ((pix >>> 10) &&& 0x1F), a⟩
  | .rgb => ⟨expand5 ((pix >>> 10) &&& 0x1F), expand5 ((pix >>> 5) &&& 0x1F),
             expand5 (pix &&& 0x1F), a⟩

/-- Group a byte list into 16-bit words, two bytes per word (little-endian
when le is true, as np.frombuffer dtype=uint16 and int.from_bytes do); a
trailing lone byte forms a word by itself, as int.from_bytes does on a
1-byte slice (vram_viewer reads data[i:i+2] which can be one byte at the
end of an odd-sized file). -/
def toWords (le : Bool) : List Nat → List Nat
  | b0 :: b1 :: rest => (if le then b0 + 256 * b1 else 256 * b0 + b1) :: toWords le rest
  | [b0] => [b0]
  | [] => []

/-- The 16-bit CT16S decode path of compare_vram.load_vram_bin: little-endian
16-bit words, each decoded with the plain-shift decoder. -/
def decodeCT16 (data : List Nat) : List RGB := (toWords true data).map decode16

/-- The 32-bit legacy path of compare_vram.load_vram_bin: RGBA bytes, alpha
dropped by the convert to RGB. -/
def rgba32ToRGB : List Nat → List RGB
  | r :: g :: b :: _a :: rest => ⟨r, g, b⟩ :: rgba32ToRGB rest
  | _ => []

/-- Outcome of compare_vram.load_vram_bin.  The function prints the actual
file size, then dispatches on it; on a size matching neither encoding it
prints a warning naming both expected sizes and returns None (no image).
The formatMismatch constructor records the three sizes the function
reports (actual, expected 16-bit, expected 32-bit). -/
inductive LoadResult
  | img32 (px : List RGB)
  | img16 (px : List RGB)
  | formatMismatch (actual expected16 expected32 : Nat)
  deriving DecidableEq

/-- compare_vram.load_vram_bin lines 13-29: dispatch on the byte length for
the fixed 1024x512 canvas, 32-bit size checked first. -/
def load_vram_bin (data : List Nat) : LoadResult :=
  let expected_16 := 1024 * 512 * 2
  let expected_32 := 1024 * 512 * 4
  if data.length = expected_32 then .img32 (rgba32ToRGB data)
  else if data.length = expected_16 then .img16 (decodeCT16 data)
  else .formatMismatch data.length expected_16 expected_32

/-- Claim C1 (counterexample): the vram_viewer decoder, cited by the claim,
does NOT produce R = (w & 0x1F) << 3: at w = 0x7FFF bit replication yields
channel 255 where the plain shift yields 248. -/
theorem C1_counterexample :
    (decode_word 0x7FFF Fmt.bgr false).r ≠ (0x7FFF &&& 0x1F) <<< 3 := by
  decide

/-- Claim C1 (amended): the comparison-pipeline decoder decode16 produces
exactly R = (w & 0x1F) << 3, G = ((w >> 5) & 0x1F) << 3,
B = ((w >> 10) & 0x1F) << 3, every decoded channel has its low 3 bits zero,
and bit 15 of the word never affects the channels; the vram_viewer decoder,
by contrast, uses bit-replicating expansion and disagrees with the plain
shift on some word. -/
theorem C1_amended_decoders :
    (∀ w : Nat,
      decode16 w = ⟨(w &&& 0x1F) <<< 3, ((w >>> 5) &&& 0x1F) <<< 3,
                    ((w >>> 10) &&& 0x1F) <<< 3⟩ ∧
      (decode16 w).r % 8 = 0 ∧ (decode16 w).g % 8 = 0 ∧ (decode16 w).b % 8 = 0 ∧
      decode16 (w &&& 0x7FFF) = decode16 w) ∧
    ∃ w : Nat, (decode_word w Fmt.bgr false).r ≠ (w &&& 0x1F) <<< 3 := by
  constructor
  · intro w
    refine ⟨rfl, ?_, ?_, ?_, ?_⟩
    · simp [decode16, Nat.shiftLeft_eq]
    · simp [decode16, Nat.shiftLeft_eq]
    · simp [decode16, Nat.shiftLeft_eq]
    · have h1 : ∀ v : Nat, v &&& 0x1F = v % 32 :=
        fun v => Nat.and_pow_two_sub_one_eq_mod v 5
      have h15 : ∀ v : Nat, v &&& 0x7FFF = v % 32768 :=
        fun v => Nat.and_pow_two_sub_one_eq_mod v 15
      have h5 : ∀ v : Nat, v >>> 5 = v / 32 := fun v => Nat.shiftRight_eq_div_pow v 5
      have h10 : ∀ v : Nat, v >>> 10 = v / 1024 := fun v => Nat.shiftRight_eq_div_pow v 10
      simp only [decode16, h15, h1, h5, h10, RGB.mk.injEq]
      refine ⟨?_, ?_, ?_⟩ <;> congr 1 <;> omega
  · exact ⟨0x7FFF, by decide⟩

/-- Claim C2: decoding dispatches purely on the byte length: exactly
2097152 bytes takes the 32-bit RGBA path, exactly 1048576 bytes takes the
16-bit packed path, and any other length yields no pixel buffer but a
format-mismatch report carrying the actual size and both expected sizes. -/
theorem C2_format_disambiguation (data : List Nat) :
    (data.length = 1024 * 512 * 4 → load_vram_bin data = .img32 (rgba32ToRGB data)) ∧
    (data.length = 1024 * 512 * 2 → load_vram_bin data = .img16 (decodeCT16 data)) ∧
    (data.length ≠ 1024 * 512 * 4 → data.length ≠ 1024 * 512 * 2 →
      load_vram_bin data =
        .formatMismatch data.length (1024 * 512 * 2) (1024 * 512 * 4)) := by
  refine ⟨fun h32 => ?_, fun h16 => ?_, fun n32 n16 => ?_⟩
  · simp [load_vram_bin, h32]
  · have : data.length ≠ 1024 * 512 * 4 := by omega
    simp [load_vram_bin, h16, this]
  · simp [load_vram_bin, n32, n16]

/-- Claim C2 (witness): a buffer of the exact 16-bit size decodes via the
16-bit path, and the empty buffer is rejected with the mismatch report. -/
theorem C2_witness :
    load_vram_bin (List.replicate (1024 * 512 * 2) 0) =
      .img16 (decodeCT16 (List.replicate (1024 * 512 * 2) 0)) ∧
    load_vram_bin [] = .formatMismatch 0 (1024 * 512 * 2) (1024 * 512 * 4) :=
  ⟨(C2_format_disambiguation _).2.1 (List.length_replicate (1024 * 512 * 2) 0),
   (C2_format_disambiguation []).2.2 (by simp) (by simp)⟩

/-- quick_diff.py line 29 / run_16bpp_tests.compare line 57: a pixel pair
differs when any channel differs (np.any(ref5 != got5)). -/
def diffMask (e a : RGB) : Bool :=
  !(e.r == a.r) || !(e.g == a.g) || !(e.b == a.b)

/-- quick_diff.py lines 32-33: a pixel is non-black when any channel is
non-zero (np.any(p != 0)). -/
def nonblackQ (p : RGB) : Bool :=
  !(p.r == 0) || !(p.g == 0) || !(p.b == 0)

/-- quick_diff.py: a pair matches when no channel differs. -/
def matchMask (e a : RGB) : Bool := !(diffMask e a)

/-- quick_diff.py line 34: missing = diff & ref_nonblack & ~got_nonblack. -/
def missingMask (e a : RGB) : Bool :=
  diffMask e a && nonblackQ e && !(nonblackQ a)

/-- quick_diff.py line 35: extra = diff & ~ref_nonblack & got_nonblack. -/
def extraMask (e a : RGB) : Bool :=
  diffMask e a && !(nonblackQ e) && nonblackQ a

/-- quick_diff.py line 36: color_diff = diff & ref_nonblack & got_nonblack. -/
def colorMask (e a : RGB) : Bool :=
  diffMask e a && nonblackQ e && nonblackQ a

/-- Two all-zero pixels cannot differ: used to rule out the
diff-with-both-black case of the classification. -/
theorem diffMask_eq_false_of_black (e a : RGB)
    (he : nonblackQ e = false) (ha : nonblackQ a = false) :
    diffMask e a = false := by
  simp only [nonblackQ, Bool.or_eq_false_iff, Bool.not_eq_false', beq_iff_eq] at he ha
  obtain ⟨⟨he1, he2⟩, he3⟩ := he
  obtain ⟨⟨ha1, ha2⟩, ha3⟩ := ha
  simp [diffMask, he1, he2, he3, ha1, ha2, ha3]

/-- The four classifications partition every pixel pair: their indicator
values always sum to exactly one. -/
theorem mask_partition (e a : RGB) :
    (matchMask e a).toNat + (missingMask e a).toNat +
      (extraMask e a).toNat + (colorMask e a).toNat = 1 := by
  cases hd : diffMask e a with
  | false => simp [matchMask, missingMask, extraMask, colorMask, hd]
  | true =>
    cases he : nonblackQ e with
    | false =>
      cases ha : nonblackQ a with
      | false => rw [diffMask_eq_false_of_black e a he ha] at hd; cases hd
      | true => simp [matchMask, missingMask, extraMask, colorMask, hd, he, ha]
    | true =>
      cases ha : nonblackQ a with
      | false => simp [matchMask, missingMask, extraMask, colorMask, hd, he, ha]
      | true => simp [matchMask, missingMask, extraMask, colorMask, hd, he, ha]

/-- A differing pair falls in exactly one of the three non-match classes. -/
theorem diff_partition (e a : RGB) :
    (diffMask e a).toNat =
      (missingMask e a).toNat + (extraMask e a).toNat + (colorMask e a).toNat := by
  have h := mask_partition e a
  simp only [matchMask] at h
  cases hd : diffMask e a <;> rw [hd] at h <;>
    cases hm : missingMask e a <;> rw [hm] at h <;>
    cases hx : extraMask e a <;> rw [hx] at h <;>
    cases hc : colorMask e a <;> rw [hc] at h <;>
    simp_all

/-- Claim C3: for every pair of (precision-normalized) pixels exactly one of
Match, Missing, Extra, ColorDivergent applies, and Missing and Extra never
hold together. -/
theorem C3_classification_exhaustive (e a : RGB) :
    (matchMask e a).toNat + (missingMask e a).toNat +
      (extraMask e a).toNat + (colorMask e a).toNat = 1 ∧
    (missingMask e a && extraMask e a) = false ∧
    (diffMask e a).toNat =
      (missingMask e a).toNat + (extraMask e a).toNat + (colorMask e a).toNat := by
  refine ⟨mask_partition e a, ?_, diff_partition e a⟩
  have h := mask_partition e a
  simp only [matchMask] at h
  cases hd : diffMask e a <;> rw [hd] at h <;>
    cases hm : missingMask e a <;> rw [hm] at h <;>
    cases hx : extraMask e a <;> rw [hx] at h <;>
    cases hc : colorMask e a <;> rw [hc] at h <;>
    simp_all

/-- run_16bpp_tests.to_5bit line 50 (also quick_diff line 28,
categorize_diffs line 18): quantize an 8-bit pixel to 5-bit precision by a
right shift of 3 on every channel. -/
def to_5bit (p : RGB) : RGB := ⟨p.r >>> 3, p.g >>> 3, p.b >>> 3⟩

/-- check_texture.py line 28: pack a 5-bit (r5, g5, b5) tuple into a 16-bit
word: val = (b5 << 10) | (g5 << 5) | r5. -/
def packWord (r5 g5 b5 : Nat) : Nat := (b5 <<< 10) ||| (g5 <<< 5) ||| r5

/-- Little-endian byte serialization of a 16-bit word, inverse of the
np.frombuffer uint16 view a dump file is read with. -/
def wordBytesLE (w : Nat) : List Nat := [w % 256, w / 256]

/-- A synthetic 16-bit dump buffer built from a list of 5-bit
(r5, g5, b5) tuples, one packed little-endian word per pixel. -/
def synthBuffer (ts : List (Nat × Nat × Nat)) : List Nat :=
  ts.flatMap fun t => wordBytesLE (packWord t.1 t.2.1 t.2.2)

set_option maxHeartbeats 4000000 in
/-- Pixel-level round trip: packing 5-bit channels, decoding with the
plain-shift decoder and re-normalizing with to_5bit is the identity on
in-range tuples. -/
theorem to_5bit_decode16_packWord :
    ∀ r5 < 32, ∀ g5 < 32, ∀ b5 < 32,
      to_5bit (decode16 (packWord r5 g5 b5)) = ⟨r5, g5, b5⟩ := by
  decide

/-- Word-level serialization round trip. -/
theorem toWords_wordBytesLE (w : Nat) (rest : List Nat) :
    toWords true (wordBytesLE w ++ rest) = w :: toWords true rest := by
  simp [wordBytesLE, toWords, Nat.mod_add_div w 256]

/-- Claim C4: decoding a synthetic buffer packed from arbitrary 5-bit
(R5, G5, B5) tuples with the 16-bit codec and normalizing back to 5-bit
precision reproduces exactly the original tuples at every pixel. -/
theorem C4_roundtrip (ts : List (Nat × Nat × Nat))
    (h : ∀ t ∈ ts, t.1 < 32 ∧ t.2.1 < 32 ∧ t.2.2 < 32) :
    (decodeCT16 (synthBuffer ts)).map to_5bit =
      ts.map fun t => RGB.mk t.1 t.2.1 t.2.2 := by
  induction ts with
  | nil => rfl
  | cons t ts ih =>
    have ht := h t (List.mem_cons_self t ts)
    have hts : ∀ u ∈ ts, u.1 < 32 ∧ u.2.1 < 32 ∧ u.2.2 < 32 :=
      fun u hu => h u (List.mem_cons_of_mem t hu)
    have hpix := to_5bit_decode16_packWord t.1 ht.1 t.2.1 ht.2.1 t.2.2 ht.2.2
    simp only [synthBuffer, List.flatMap_cons, decodeCT16, toWords_wordBytesLE,
      List.map_cons]
    rw [hpix]
    exact congrArg (List.cons _) (ih hts)

/-- Claim C4 (witness): the round trip at a concrete two-pixel buffer. -/
theorem C4_witness :
    (∀ t ∈ [((31 : Nat), (0 : Nat), (7 : Nat)), (1, 2, 3)],
      t.1 < 32 ∧ t.2.1 < 32 ∧ t.2.2 < 32) ∧
    (decodeCT16 (synthBuffer [(31, 0, 7), (1, 2, 3)])).map to_5bit =
      [RGB.mk 31 0 7, RGB.mk 1 2 3] :=
  ⟨by decide, C4_roundtrip [(31, 0, 7), (1, 2, 3)] (by decide)⟩

/-- The pixel-pair list a comparison works over: both buffers normalized to
5-bit precision and paired up (first component from the first argument). -/
def pairs5 (xs ys : List RGB) : List (RGB × RGB) :=
  (xs.map to_5bit).zip (ys.map to_5bit)

/-- run_16bpp_tests.compare lines 55-58: number of pixels whose 5-bit
values differ in any channel (dump first, reference second). -/
def compare_diff_count (dump ref : List RGB) : Nat :=
  (pairs5 dump ref).countP fun p => diffMask p.1 p.2

/-- Round to two decimal places, as compare's round(x, 2) reports the
percentage.  Python rounds floats half-to-even; the two differ only at
exact half-way points of the third decimal, which no claim here touches. -/
def roundQ2 (q : ℚ) : ℚ := (round (q * 100) : ℤ) / 100

/-- run_16bpp_tests.compare line 60:
match_pct = round(100 * (1 - diff_count / total), 2), with total the pixel
count of the compared (cropped) region. -/
def compare_match_pct (dump ref : List RGB) : ℚ :=
  roundQ2 (100 * (1 - (compare_diff_count dump ref : ℚ) / (dump.length : ℚ)))

/-- quick_diff.py line 30: total_diff over the 5-bit pair list
(reference first, observed second). -/
def qd_total (ref got : List RGB) : Nat :=
  (pairs5 ref got).countP fun p => diffMask p.1 p.2

/-- quick_diff.py line 34: count of missing pixels. -/
def qd_missing (ref got : List RGB) : Nat :=
  (pairs5 ref got).countP fun p => missingMask p.1 p.2

/-- quick_diff.py line 35: count of extra pixels. -/
def qd_extra (ref got : List RGB) : Nat :=
  (pairs5 ref got).countP fun p => extraMask p.1 p.2

/-- quick_diff.py line 36: count of color-divergent pixels. -/
def qd_color (ref got : List RGB) : Nat :=
  (pairs5 ref got).countP fun p => colorMask p.1 p.2

/-- quick_diff.py line 38: pct = 100 * (1 - total_diff / (320 * 224)) — the
denominator is the hardcoded constant 71680, not the size of the compared
buffers. -/
def quickDiffPct (ref got : List RGB) : ℚ :=
  100 * (1 - (qd_total ref got : ℚ) / (320 * 224))

/-- full_breakdown.py lines 28-29: a pixel is black when all channels are
zero (np.all(p == 0)). -/
def blackMask (p : RGB) : Bool := p.r == 0 && p.g == 0 && p.b == 0

/-- full_breakdown.py line 31: miss = diff & got_black & ~ref_black. -/
def fb_missMask (e a : RGB) : Bool :=
  diffMask e a && blackMask a && !(blackMask e)

/-- full_breakdown.py line 32: extra = diff & ref_black & ~got_black. -/
def fb_extraMask (e a : RGB) : Bool :=
  diffMask e a && blackMask e && !(blackMask a)

/-- full_breakdown.py line 33:
color_mask = diff & ~(diff & got_black & ~ref_black)
                  & ~(diff & ref_black & ~got_black). -/
def fb_colorMask (e a : RGB) : Bool :=
  diffMask e a && !(diffMask e a && blackMask a && !(blackMask e)) &&
    !(diffMask e a && blackMask e && !(blackMask a))

/-- full_breakdown.py line 45: pct = 100 * (1 - total / 71680), again with
the hardcoded 320 * 224 denominator. -/
def fb_pct (total : Nat) : ℚ := 100 * (1 - (total : ℚ) / 71680)

/-- The any-channel-nonzero test is the negation of the all-channels-zero
test, so quick_diff and full_breakdown agree on blackness. -/
theorem nonblackQ_eq_not_blackMask (p : RGB) : nonblackQ p = !(blackMask p) := by
  cases hr : p.r == 0 <;> cases hg : p.g == 0 <;> cases hb : p.b == 0 <;>
    simp [nonblackQ, blackMask, hr, hg, hb]

/-- Counting over a list zipped with itself counts the diagonal predicate. -/
theorem countP_zip_self {α : Type} (l : List α) (p : α × α → Bool) :
    (l.zip l).countP p = l.countP fun x => p (x, x) := by
  induction l with
  | nil => rfl
  | cons x xs ih => simp [List.zip_cons_cons, List.countP_cons, ih]

/-- countP splits along a pointwise partition of the counted predicate. -/
theorem countP_partition {α : Type} (l : List α) (f g1 g2 g3 : α → Bool)
    (h : ∀ x, (f x).toNat = (g1 x).toNat + (g2 x).toNat + (g3 x).toNat) :
    l.countP f = l.countP g1 + l.countP g2 + l.countP g3 := by
  induction l with
  | nil => rfl
  | cons x xs ih =>
    have hx := h x
    simp only [List.countP_cons, ih]
    cases hf : f x <;> rw [hf] at hx <;>
      cases h1 : g1 x <;> rw [h1] at hx <;>
      cases h2 : g2 x <;> rw [h2] at hx <;>
      cases h3 : g3 x <;> rw [h3] at hx <;>
      simp_all <;> omega

/-- Claim C5: comparing a buffer with an identical copy of itself (both
sides precision-normalized by the pipeline) yields zero differing pixels,
zero pixels in every non-match category, and a match percentage of
exactly 100, both in run_16bpp_tests.compare and in quick_diff. -/
theorem C5_identity (buf : List RGB) (h : 0 < buf.length) :
    compare_diff_count buf buf = 0 ∧
    qd_total buf buf = 0 ∧ qd_missing buf buf = 0 ∧
    qd_extra buf buf = 0 ∧ qd_color buf buf = 0 ∧
    compare_match_pct buf buf = 100 ∧ quickDiffPct buf buf = 100 := by
  have hzero : ∀ m : RGB → RGB → Bool, (∀ x : RGB, m x x = false) →
      ((pairs5 buf buf).countP fun p => m p.1 p.2) = 0 := by
    intro m hm
    rw [pairs5, countP_zip_self]
    apply List.countP_eq_zero.mpr
    intro x _
    simp [hm]
  have hdiff : compare_diff_count buf buf = 0 :=
    hzero diffMask fun x => by simp [diffMask]
  have hqt : qd_total buf buf = 0 :=
    hzero diffMask fun x => by simp [diffMask]
  refine ⟨hdiff, hqt, ?_, ?_, ?_, ?_, ?_⟩
  · exact hzero missingMask fun x => by simp [missingMask, diffMask]
  · exact hzero extraMask fun x => by simp [extraMask, diffMask]
  · exact hzero colorMask fun x => by simp [colorMask, diffMask]
  · rw [compare_match_pct, hdiff]
    norm_num [roundQ2]
  · rw [quickDiffPct, hqt]
    norm_num

/-- Claim C5 (witness): the identity comparison at a concrete one-pixel
buffer. -/
theorem C5_witness :
    compare_diff_count [RGB.mk 10 20 30] [RGB.mk 10 20 30] = 0 ∧
    compare_match_pct [RGB.mk 10 20 30] [RGB.mk 10 20 30] = 100 :=
  ⟨(C5_identity [RGB.mk 10 20 30] (by decide)).1,
   (C5_identity [RGB.mk 10 20 30] (by decide)).2.2.2.2.2.1⟩

/-- The pointwise partition restated for the counted pair predicates. -/
theorem diff_pair_partition (p : RGB × RGB) :
    (diffMask p.1 p.2).toNat =
      (missingMask p.1 p.2).toNat + (extraMask p.1 p.2).toNat +
        (colorMask p.1 p.2).toNat :=
  diff_partition p.1 p.2

/-- quick_diff's total_diff splits exactly into the three category counts. -/
theorem qd_total_eq_sum (ref got : List RGB) :
    qd_total ref got = qd_missing ref got + qd_extra ref got + qd_color ref got :=
  countP_partition (pairs5 ref got) _ _ _ _ diff_pair_partition

/-- full_breakdown's masks coincide pointwise with quick_diff's. -/
theorem fb_masks_eq (e a : RGB) :
    fb_missMask e a = missingMask e a ∧ fb_extraMask e a = extraMask e a ∧
      fb_colorMask e a = colorMask e a := by
  have hne : nonblackQ e = !(blackMask e) := nonblackQ_eq_not_blackMask e
  have hna : nonblackQ a = !(blackMask a) := nonblackQ_eq_not_blackMask a
  cases hbe : blackMask e <;> cases hba : blackMask a
  · simp_all [fb_missMask, fb_extraMask, fb_colorMask,
      missingMask, extraMask, colorMask]
  · simp_all [fb_missMask, fb_extraMask, fb_colorMask,
      missingMask, extraMask, colorMask]
  · simp_all [fb_missMask, fb_extraMask, fb_colorMask,
      missingMask, extraMask, colorMask]
  · have hd : diffMask e a = false :=
      diffMask_eq_false_of_black e a (by simp [hne, hbe]) (by simp [hna, hba])
    simp_all [fb_missMask, fb_extraMask, fb_colorMask,
      missingMask, extraMask, colorMask]

/-- Claim C6 (amended): the reported match percentage is
100 * (1 - total_diff / total_pixels) with total_diff the sum of the three
non-match category counts, where run_16bpp_tests.compare divides by the
compared region's pixel count (and rounds to two decimals), while
quick_diff and full_breakdown divide by the hardcoded constant
71680 = 320 * 224 whatever the buffers' dimensions are. -/
theorem C6_amended_pct (dump ref got exp : List RGB) :
    compare_match_pct dump ref =
      roundQ2 (100 * (1 - (compare_diff_count dump ref : ℚ) / (dump.length : ℚ))) ∧
    compare_diff_count dump ref =
      ((pairs5 dump ref).countP fun p => missingMask p.1 p.2) +
      ((pairs5 dump ref).countP fun p => extraMask p.1 p.2) +
      ((pairs5 dump ref).countP fun p => colorMask p.1 p.2) ∧
    quickDiffPct exp got =
      100 * (1 - ((qd_missing exp got + qd_extra exp got + qd_color exp got : Nat) : ℚ)
        / (320 * 224)) ∧
    (∀ n : Nat, fb_pct n = 100 * (1 - (n : ℚ) / 71680)) ∧
    (∀ e a : RGB, fb_missMask e a = missingMask e a ∧
      fb_extraMask e a = extraMask e a ∧ fb_colorMask e a = colorMask e a) := by
  refine ⟨rfl, ?_, ?_, fun n => rfl, fb_masks_eq⟩
  · exact countP_partition (pairs5 dump ref) _ _ _ _ diff_pair_partition
  · rw [quickDiffPct, qd_total_eq_sum]

/-- Concrete two-pixel buffers with exactly one differing pixel, used to
exhibit quick_diff's hardcoded percentage denominator. -/
def qdRefCx : List RGB := [⟨255, 0, 0⟩, ⟨0, 0, 0⟩]

/-- The observed side of the two-pixel counterexample buffers. -/
def qdGotCx : List RGB := [⟨0, 0, 0⟩, ⟨0, 0, 0⟩]

/-- Claim C6 (counterexample): on a 2-pixel diff map with one differing
pixel, quick_diff reports 100 * (1 - 1/71680), not the claimed
100 * (1 - total_diff / total_pixels) = 50: the denominator is the
hardcoded 320 * 224, not the compared region's pixel count. -/
theorem C6_counterexample :
    quickDiffPct qdRefCx qdGotCx ≠
      100 * (1 - (qd_total qdRefCx qdGotCx : ℚ) / (qdRefCx.length : ℚ)) := by
  have h1 : qd_total qdRefCx qdGotCx = 1 := by decide
  have h2 : qdRefCx.length = 2 := by decide
  rw [quickDiffPct, h1, h2]
  norm_num

/-- PIL's Image.resize resamples with Resampling.BICUBIC when no resample
argument is passed (the Pillow default since 2.7); analyze.compare_images
line 164 calls img2.resize(img1.size) with no resample argument. -/
inductive Resample
  | nearest
  | box
  | bilinear
  | hamming
  | bicubic
  | lanczos
  deriving DecidableEq

/-- The resample mode analyze.compare_images actually uses: the Pillow
default, bicubic. -/
def pilDefaultResample : Resample := .bicubic

/-- Width and height of a loaded image, as PIL's Image.size reports them. -/
structure SizedImage where
  w : Nat
  h : Nat
  deriving DecidableEq

/-- What analyze.compare_images lines 160-165 did about sizes: whether the
reference was resized, whether the accommodation was reported (both prints
on lines 161 and 165), which resample mode the resize used, and the
dimensions the reference has afterwards. -/
structure ResizeStep where
  resized : Bool
  reported : Bool
  mode : Option Resample
  outW : Nat
  outH : Nat
  deriving DecidableEq

/-- analyze.compare_images lines 160-165: if img1.size != img2.size, print
the mismatch, resize img2 (the reference) to img1.size (the dump's size)
with the default resample mode, and print that the resize happened;
otherwise leave img2 untouched. -/
def compare_images_normalize (img1 img2 : SizedImage) : ResizeStep :=
  if (img1.w, img1.h) ≠ (img2.w, img2.h) then
    ⟨true, true, some pilDefaultResample, img1.w, img1.h⟩
  else
    ⟨false, false, none, img2.w, img2.h⟩

/-- Claim C7 (counterexample): at mismatched sizes 1024x512 vs 320x224 the
accommodation path does engage, but it resamples with the library default
bicubic — neither nearest-neighbor nor area resampling. -/
theorem C7_counterexample :
    (compare_images_normalize ⟨1024, 512⟩ ⟨320, 224⟩).resized = true ∧
    (compare_images_normalize ⟨1024, 512⟩ ⟨320, 224⟩).mode ≠ some Resample.nearest ∧
    (compare_images_normalize ⟨1024, 512⟩ ⟨320, 224⟩).mode ≠ some Resample.box := by
  decide

/-- Claim C7 (amended): the reference is resized when and only when its
dimensions differ from the dump's, the accommodation is always reported
(never silent), the output dimensions are the dump's, and the resampling
is PIL's default bicubic rather than nearest/area; matching dimensions
leave the reference untouched. -/
theorem C7_amended_resize (img1 img2 : SizedImage) :
    ((img1.w, img1.h) ≠ (img2.w, img2.h) →
      compare_images_normalize img1 img2 =
        ⟨true, true, some Resample.bicubic, img1.w, img1.h⟩) ∧
    ((img1.w, img1.h) = (img2.w, img2.h) →
      compare_images_normalize img1 img2 = ⟨false, false, none, img2.w, img2.h⟩) ∧
    (compare_images_normalize img1 img2).resized =
      (compare_images_normalize img1 img2).reported := by
  refine ⟨fun hne => ?_, fun heq => ?_, ?_⟩
  · simp [compare_images_normalize, hne, pilDefaultResample]
  · simp [compare_images_normalize, heq]
  · by_cases hc : (img1.w, img1.h) = (img2.w, img2.h) <;>
      simp [compare_images_normalize, hc]

/-- Claim C7 (witness): both branches at concrete sizes. -/
theorem C7_witness :
    compare_images_normalize ⟨1024, 512⟩ ⟨320, 224⟩ =
      ⟨true, true, some Resample.bicubic, 1024, 512⟩ ∧
    compare_images_normalize ⟨1024, 512⟩ ⟨1024, 512⟩ =
      ⟨false, false, none, 1024, 512⟩ :=
  ⟨(C7_amended_resize ⟨1024, 512⟩ ⟨320, 224⟩).1 (by decide),
   (C7_amended_resize ⟨1024, 512⟩ ⟨1024, 512⟩).2.1 (by decide)⟩

/-- Insert a value into an ascending list, keeping it sorted: one step of
the ascending sort that models Python's list.sort() on the coordinate
lists (the multiset of naturals in ascending order is all the heuristic
reads from it). -/
def insertSorted (x : Nat) : List Nat → List Nat
  | [] => [x]
  | y :: ys => if x ≤ y then x :: y :: ys else y :: insertSorted x ys

/-- Ascending sort of a list of naturals (Python list.sort()). -/
def sortNat (l : List Nat) : List Nat := l.foldr insertSorted []

/-- analyze.analyze_image line 102: trim = int(len(active_pixels) * 0.05).
For every list length the float product n * 0.05 truncates to n / 20
(0.05 rounds up to 1/20 + 2^-58.32.. in binary64, and the excess never
reaches the next integer for any feasible n), so the Nat expression
n * 5 / 100 is exact. -/
def trimCount (n : Nat) : Nat := n * 5 / 100

/-- analyze.analyze_image lines 103-105: when trim > 0, slice off the first
and last trim elements (xs[trim:-trim]); otherwise the guard leaves the
list unchanged. -/
def trimmedList (l : List Nat) (t : Nat) : List Nat :=
  if 0 < t then (l.take (l.length - t)).drop t else l

/-- analyze.analyze_image line 40: the sampling stride of the active-pixel
grid (step = 10). -/
def sampleStep : Nat := 10

/-- Shape classification labels printed by analyze.analyze_image. -/
inductive Shape
  | RECTANGLE
  | TRIANGLE
  | AMBIGUOUS
  deriving DecidableEq

/-- Result of the shape heuristic.  INDEX_ERROR models what Python's
xs[0] / xs[-1] would raise on an empty list - the theorems show it is
never produced. -/
inductive ShapeResult
  | NOT_ENOUGH_PIXELS
  | NO_CLUSTER_FOUND
  | INDEX_ERROR
  | shape (s : Shape) (fill : ℚ)
  deriving DecidableEq

/-- analyze.analyze_image lines 129-134: RECTANGLE when fill_ratio > 0.8,
TRIANGLE when 0.3 < fill_ratio < 0.7, else AMBIGUOUS. -/
def shapeOf (fill : ℚ) : Shape :=
  if 4 / 5 < fill then .RECTANGLE
  else if 3 / 10 < fill ∧ fill < 7 / 10 then .TRIANGLE
  else .AMBIGUOUS

/-- analyze.analyze_image line 120: inclusive bounding-box membership test
min_x <= px <= max_x and min_y <= py <= max_y. -/
def inBBox (minx maxx miny maxy : Nat) (p : Nat × Nat) : Bool :=
  decide (minx ≤ p.1) && decide (p.1 ≤ maxx) &&
    decide (miny ≤ p.2) && decide (p.2 ≤ maxy)

/-- analyze.analyze_image lines 118-121: count of the ORIGINAL active
pixels inside the bounding box. -/
def countInBBox (active : List (Nat × Nat)) (minx maxx miny maxy : Nat) : Nat :=
  active.countP (inBBox minx maxx miny maxy)

/-- analyze.analyze_image lines 113-123:
fill_ratio = (count_in_bbox * (step * step)) / (bbox_area + 1), with
bbox_area = (max_x - min_x) * (max_y - min_y). -/
def fillOf (active : List (Nat × Nat)) (minx maxx miny maxy : Nat) : ℚ :=
  ((countInBBox active minx maxx miny maxy * (sampleStep * sampleStep) : Nat) : ℚ) /
    ((((maxx - minx) * (maxy - miny) : Nat) : ℚ) + 1)

/-- analyze.analyze_image lines 107-134, the part after trimming: empty
trimmed coordinate lists report NO_CLUSTER_FOUND; otherwise min/max are
the first/last elements of the sorted trimmed lists and the bbox shape is
classified.  The unreachable arm records the IndexError an empty-list
xs[0] would raise. -/
def clusterStep (active : List (Nat × Nat)) (xs ys : List Nat) : ShapeResult :=
  if xs = [] ∨ ys = [] then .NO_CLUSTER_FOUND
  else
    match xs.head?, xs.getLast?, ys.head?, ys.getLast? with
    | some minx, some maxx, some miny, some maxy =>
      .shape (shapeOf (fillOf active minx maxx miny maxy))
        (fillOf active minx maxx miny maxy)
    | _, _, _, _ => .INDEX_ERROR

/-- The trimmed sorted x-coordinate list of analyze.analyze_image
lines 96-105. -/
def trimmedXs (active : List (Nat × Nat)) : List Nat :=
  trimmedList (sortNat (active.map Prod.fst)) (trimCount active.length)

/-- The trimmed sorted y-coordinate list. -/
def trimmedYs (active : List (Nat × Nat)) : List Nat :=
  trimmedList (sortNat (active.map Prod.snd)) (trimCount active.length)

/-- analyze.analyze_image lines 90-136: the shape heuristic needs strictly
more than 100 active sampled pixels, otherwise NOT_ENOUGH_PIXELS. -/
def analyze_shape (active : List (Nat × Nat)) : ShapeResult :=
  if 100 < active.length then
    clusterStep active (trimmedXs active) (trimmedYs active)
  else .NOT_ENOUGH_PIXELS

/-- The fill value the code computes, written out standalone: bbox corners
from the trimmed sorted lists, original-sample count in the inclusive
bbox, times step squared, over area + 1. -/
def code_fill (active : List (Nat × Nat)) : ℚ :=
  fillOf active ((trimmedXs active).head?.getD 0) ((trimmedXs active).getLast?.getD 0)
    ((trimmedYs active).head?.getD 0) ((trimmedYs active).getLast?.getD 0)

/-- Inserting preserves length plus one. -/
theorem insertSorted_length (x : Nat) (l : List Nat) :
    (insertSorted x l).length = l.length + 1 := by
  induction l with
  | nil => rfl
  | cons y ys ih => by_cases h : x ≤ y <;> simp [insertSorted, h, ih]

/-- Sorting preserves length. -/
theorem sortNat_length (l : List Nat) : (sortNat l).length = l.length := by
  induction l with
  | nil => rfl
  | cons x xs ih =>
    simp only [sortNat, List.foldr_cons] at *
    rw [insertSorted_length, ih, List.length_cons]

/-- Length of a positively trimmed list. -/
theorem trimmedList_length (l : List Nat) (t : Nat) (h : 0 < t) :
    (trimmedList l t).length = l.length - t - t := by
  simp only [trimmedList, if_pos h, List.length_drop, List.length_take]
  omega

/-- With more than 100 samples the trimmed x-list keeps at least 90% of the
coordinates and is never empty. -/
theorem trimmedXs_ne_nil (active : List (Nat × Nat)) (h : 100 < active.length) :
    trimmedXs active ≠ [] := by
  have ht : 0 < trimCount active.length := by
    simp only [trimCount]; omega
  have hlen := trimmedList_length (sortNat (active.map Prod.fst))
    (trimCount active.length) ht
  rw [sortNat_length, List.length_map] at hlen
  intro hnil
  rw [trimmedXs] at hnil
  rw [hnil] at hlen
  simp only [List.length_nil, trimCount] at hlen
  omega

/-- The trimmed y-list is likewise nonempty. -/
theorem trimmedYs_ne_nil (active : List (Nat × Nat)) (h : 100 < active.length) :
    trimmedYs active ≠ [] := by
  have ht : 0 < trimCount active.length := by
    simp only [trimCount]; omega
  have hlen := trimmedList_length (sortNat (active.map Prod.snd))
    (trimCount active.length) ht
  rw [sortNat_length, List.length_map] at hlen
  intro hnil
  rw [trimmedYs] at hnil
  rw [hnil] at hlen
  simp only [List.length_nil, trimCount] at hlen
  omega

/-- On nonempty trimmed lists the cluster step always reaches the shape
branch, with the corners read off head? and getLast?. -/
theorem clusterStep_shape (active : List (Nat × Nat)) (xs ys : List Nat)
    (hx : xs ≠ []) (hy : ys ≠ []) :
    clusterStep active xs ys =
      .shape (shapeOf (fillOf active (xs.head?.getD 0) (xs.getLast?.getD 0)
          (ys.head?.getD 0) (ys.getLast?.getD 0)))
        (fillOf active (xs.head?.getD 0) (xs.getLast?.getD 0)
          (ys.head?.getD 0) (ys.getLast?.getD 0)) := by
  obtain ⟨mx, hmx⟩ : ∃ v, xs.head? = some v := by
    cases hv : xs.head? with
    | none => rw [List.head?_eq_none_iff] at hv; exact absurd hv hx
    | some v => exact ⟨v, rfl⟩
  obtain ⟨Mx, hMx⟩ : ∃ v, xs.getLast? = some v := by
    cases hv : xs.getLast? with
    | none => rw [List.getLast?_eq_none_iff] at hv; exact absurd hv hx
    | some v => exact ⟨v, rfl⟩
  obtain ⟨my, hmy⟩ : ∃ v, ys.head? = some v := by
    cases hv : ys.head? with
    | none => rw [List.head?_eq_none_iff] at hv; exact absurd hv hy
    | some v => exact ⟨v, rfl⟩
  obtain ⟨My, hMy⟩ : ∃ v, ys.getLast? = some v := by
    cases hv : ys.getLast? with
    | none => rw [List.getLast?_eq_none_iff] at hv; exact absurd hv hy
    | some v => exact ⟨v, rfl⟩
  simp only [clusterStep, hmx, hMx, hmy, hMy, Option.getD_some]
  rw [if_neg]
  simp [hx, hy]

/-- For more than 100 samples the heuristic output is exactly the
classified code fill value. -/
theorem analyze_shape_eq (active : List (Nat × Nat)) (h : 100 < active.length) :
    analyze_shape active = .shape (shapeOf (code_fill active)) (code_fill active) := by
  rw [analyze_shape, if_pos h]
  exact clusterStep_shape active _ _ (trimmedXs_ne_nil active h)
    (trimmedYs_ne_nil active h)

/-- A 121-point sampled grid (10i, 10j) for 0 ≤ i, j ≤ 10: an 11x11 block
of active samples at the sampling stride, as analyze_image would collect
over a filled 100x100 square. -/
def grid121 : List (Nat × Nat) :=
  (List.range 11).flatMap fun i => (List.range 11).map fun j => (10 * i, 10 * j)

/-- The fill ratio exactly as the claim words it (for comparison with the
code): the active sample count inside the box divided by the box area. -/
def claim_fill (active : List (Nat × Nat)) : ℚ :=
  ((countInBBox active ((trimmedXs active).head?.getD 0)
      ((trimmedXs active).getLast?.getD 0) ((trimmedYs active).head?.getD 0)
      ((trimmedYs active).getLast?.getD 0) : Nat) : ℚ) /
    ((((trimmedXs active).getLast?.getD 0 - (trimmedXs active).head?.getD 0) *
      ((trimmedYs active).getLast?.getD 0 -
        (trimmedYs active).head?.getD 0) : Nat) : ℚ)

set_option maxRecDepth 40000 in
/-- Claim C8 (counterexample): on the 121-point grid the code computes
fill = 121 * 100 / (10000 + 1) and prints RECTANGLE, while the claim's
fill ratio count/area is 121/10000 = 0.0121, which is not > 0.8 — so
"RECTANGLE exactly when fill_ratio > 0.8" is false of the code. -/
theorem C8_counterexample :
    analyze_shape grid121 = .shape .RECTANGLE (12100 / 10001) ∧
    ¬((4 : ℚ) / 5 < claim_fill grid121) := by
  have hminx : (trimmedXs grid121).head?.getD 0 = 0 := by decide
  have hmaxx : (trimmedXs grid121).getLast?.getD 0 = 100 := by decide
  have hminy : (trimmedYs grid121).head?.getD 0 = 0 := by decide
  have hmaxy : (trimmedYs grid121).getLast?.getD 0 = 100 := by decide
  have hcount : countInBBox grid121 0 100 0 100 = 121 := by decide
  have hlen : 100 < grid121.length := by decide
  have hfill : code_fill grid121 = 12100 / 10001 := by
    rw [code_fill, hminx, hmaxx, hminy, hmaxy, fillOf, hcount]
    norm_num [sampleStep]
  have hshape : shapeOf ((12100 : ℚ) / 10001) = .RECTANGLE := by
    rw [shapeOf, if_pos (by norm_num)]
  constructor
  · rw [analyze_shape_eq grid121 hlen, hfill, hshape]
  · rw [claim_fill, hminx, hmaxx, hminy, hmaxy, hcount]
    norm_num

/-- Claim C8 (amended): after trimming int(n * 0.05) elements from each end
of each sorted coordinate list and taking the trimmed bounding box, the
code computes fill = count_in_bbox * step^2 / (bbox_area + 1) (count over
the original samples, inclusive box, step = 10) — not count / area — and
classifies RECTANGLE exactly when fill > 0.8, TRIANGLE exactly when
0.3 < fill < 0.7, AMBIGUOUS otherwise. -/
theorem C8_amended_heuristic (active : List (Nat × Nat)) (h : 100 < active.length) :
    analyze_shape active = .shape (shapeOf (code_fill active)) (code_fill active) ∧
    (∀ q : ℚ,
      (shapeOf q = .RECTANGLE ↔ 4 / 5 < q) ∧
      (shapeOf q = .TRIANGLE ↔ (3 / 10 < q ∧ q < 7 / 10)) ∧
      (shapeOf q = .AMBIGUOUS ↔ (q ≤ 3 / 10 ∨ (7 / 10 ≤ q ∧ q ≤ 4 / 5)))) := by
  refine ⟨analyze_shape_eq active h, fun q => ?_⟩
  by_cases h1 : (4 : ℚ) / 5 < q
  · rw [shapeOf, if_pos h1]
    refine ⟨by simp [h1], ?_, ?_⟩
    · constructor
      · intro hc; exact absurd hc (by decide)
      · rintro ⟨h3, h7⟩; linarith
    · constructor
      · intro hc; exact absurd hc (by decide)
      · rintro (h3 | ⟨h7, h45⟩) <;> linarith
  · by_cases h2 : (3 : ℚ) / 10 < q ∧ q < 7 / 10
    · rw [shapeOf, if_neg h1, if_pos h2]
      refine ⟨?_, by simp [h2], ?_⟩
      · constructor
        · intro hc; exact absurd hc (by decide)
        · intro h45; exact absurd h45 h1
      · constructor
        · intro hc; exact absurd hc (by decide)
        · rintro (h3 | ⟨h7, h45⟩)
          · linarith [h2.1]
          · linarith [h2.2]
    · rw [shapeOf, if_neg h1, if_neg h2]
      push_neg at h1 h2
      refine ⟨?_, ?_, ?_⟩
      · constructor
        · intro hc; exact absurd hc (by decide)
        · intro h45; linarith
      · constructor
        · intro hc; exact absurd hc (by decide)
        · rintro ⟨h3, h7⟩; exact absurd (h2 h3) (not_le.mpr h7)
      · simp only [true_iff]
        rcases le_or_lt q (3 / 10) with h3 | h3
        · exact Or.inl h3
        · exact Or.inr ⟨h2 h3, h1⟩

/-- Claim C8 (witness): the amended description at the concrete grid. -/
theorem C8_witness :
    analyze_shape grid121 = .shape (shapeOf (code_fill grid121)) (code_fill grid121) :=
  (C8_amended_heuristic grid121 (by decide)).1

/-- The transparent black pixel vram_viewer pads short files with. -/
def zeroRGBA : RGBA := ⟨0, 0, 0, 0⟩

/-- vram_viewer.main lines 83-98: read words only up to
min(len(data), width*height*2) bytes (extra bytes ignored), decode each,
pad with transparent black up to width*height pixels, and emit exactly
width*height pixels. -/
def viewer_pixels (data : List Nat) (width height : Nat) (fmt : Fmt)
    (alpha le : Bool) : List RGBA :=
  let expected := width * height * 2
  let pix := (toWords le (data.take expected)).map fun w => decode_word w fmt alpha
  let total := width * height
  (pix ++ List.replicate (total - pix.length) zeroRGBA).take total

/-- Claim C9: the converter is total in the input size: it always emits
exactly width*height pixels, bytes beyond width*height*2 never influence
the output, and every pixel position beyond the decoded words is the
transparent black pad (0,0,0,0). -/
theorem C9_viewer_total (data : List Nat) (width height : Nat) (fmt : Fmt)
    (alpha le : Bool) :
    (viewer_pixels data width height fmt alpha le).length = width * height ∧
    viewer_pixels data width height fmt alpha le =
      viewer_pixels (data.take (width * height * 2)) width height fmt alpha le ∧
    (∀ j, (toWords le (data.take (width * height * 2))).length ≤ j →
      j < width * height →
      (viewer_pixels data width height fmt alpha le)[j]? = some zeroRGBA) := by
  refine ⟨?_, ?_, ?_⟩
  · simp only [viewer_pixels, List.length_take, List.length_append,
      List.length_replicate]
    omega
  · simp only [viewer_pixels, List.take_take, Nat.min_self]
  · intro j hj hjt
    have hW : ((toWords le (data.take (width * height * 2))).map
        fun w => decode_word w fmt alpha).length ≤ j := by
      simpa using hj
    simp only [viewer_pixels]
    rw [List.getElem?_take, if_pos hjt, List.getElem?_append_right hW,
      List.getElem?_replicate, if_pos ?_]
    have := List.length_map (toWords le (data.take (width * height * 2)))
      fun w => decode_word w fmt alpha
    omega

/-- Claim C9 (witness): a 3-byte input for a 2x2 target decodes one full
word and one lone byte and pads the remaining two pixels. -/
theorem C9_witness :
    (viewer_pixels [1, 2, 3] 2 2 Fmt.bgr false true).length = 4 ∧
    (viewer_pixels [1, 2, 3] 2 2 Fmt.bgr false true)[3]? = some zeroRGBA :=
  ⟨(C9_viewer_total [1, 2, 3] 2 2 Fmt.bgr false true).1,
   (C9_viewer_total [1, 2, 3] 2 2 Fmt.bgr false true).2.2 3 (by decide) (by decide)⟩

/-- Claim C10: with 100 or fewer active samples the heuristic answers
NOT_ENOUGH_PIXELS and computes no bounding box; empty trimmed coordinate
lists short-circuit to NO_CLUSTER_FOUND before any first/last access; and
no input whatsoever can reach the IndexError arm of the bbox computation. -/
theorem C10_shape_guards (active : List (Nat × Nat)) :
    (active.length ≤ 100 → analyze_shape active = .NOT_ENOUGH_PIXELS) ∧
    analyze_shape active ≠ .INDEX_ERROR ∧
    (∀ xs ys : List Nat, xs = [] ∨ ys = [] →
      clusterStep active xs ys = .NO_CLUSTER_FOUND) := by
  refine ⟨fun hle => ?_, ?_, fun xs ys hor => ?_⟩
  · rw [analyze_shape, if_neg (by omega)]
  · by_cases hc : 100 < active.length
    · rw [analyze_shape_eq active hc]
      intro hcon
      exact ShapeResult.noConfusion hcon
    · rw [analyze_shape, if_neg hc]
      intro hcon
      exact ShapeResult.noConfusion hcon
  · rw [clusterStep, if_pos hor]

/-- Claim C10 (witness): the small-sample guard and the empty-list guard at
concrete inputs, plus unreachability of the IndexError arm there. -/
theorem C10_witness :
    analyze_shape [] = .NOT_ENOUGH_PIXELS ∧
    clusterStep [] [] [0] = .NO_CLUSTER_FOUND ∧
    analyze_shape [] ≠ .INDEX_ERROR :=
  ⟨(C10_shape_guards []).1 (by decide),
   (C10_shape_guards []).2.2 [] [0] (Or.inl rfl),
   (C10_shape_guards []).2.1⟩
